import Mathlib

/-!
Verification of the proper-motion correction utilities (`casautils.py`).

The development shallowly embeds the two entry points `correctForPM` and
`updatePM`.  Machine floating-point numbers are modelled by an arbitrary
linear ordered field `K` (instantiated at `ℚ` for computation and at `ℝ`
when the real cosine matters); `np.cos` is an explicit function parameter.
The numpy `int64` array `seconds` is modelled by `List ℤ`, and the C-style
float-to-int64 cast by truncation toward zero.  The casa table tool `tb` is
modelled by explicit list-of-rows state; fallible table accesses return
`Option`, and an uncaught Python `IndexError` is the `Err.indexError`
outcome.  The SIMBAD service is a function parameter from the queried value
to an optional proper-motion record in milliarcseconds per year.
-/

set_option autoImplicit false

universe u

namespace Casautils

variable {K : Type} [LinearOrderedField K] [FloorRing K]

/-- An uncaught Python exception.  Every failure path of the script
(numpy fancy indexing with a non-integer array, indexing an empty array,
an out-of-range casa table row) raises `IndexError`. -/
inductive Err
  | indexError
deriving DecidableEq, Repr

/-- A Python numeric value together with its runtime type, as tested by
`isinstance(newtime, float)` on line 79.  `float` covers `float` and
`np.float64` (a subclass); `int` covers values that are not floats. -/
inductive PyVal (K : Type)
  | float (x : K)
  | int (n : ℤ)
deriving DecidableEq, Repr

/-- The runtime type of the `field` argument, dispatched on lines 61-67:
a name, a single integer, a collection of integers, or anything else
(`byOther`), for which `np.array(field)` is not an integer array. -/
inductive FieldSpec
  | byName (s : String)
  | byIndex (i : ℤ)
  | byIndices (l : List ℤ)
  | byOther
deriving DecidableEq, Repr

/-- The three direction columns written on lines 99-104. -/
inductive DirRole
  | refDir
  | phaseDir
  | delayDir
deriving DecidableEq, Repr

/-- One row of the FIELD table: the columns the script touches. -/
structure FieldRow (K : Type) where
  name : String
  sourceId : ℤ
  time : K
  referenceDir : K × K
  phaseDir : K × K
  delayDir : K × K
deriving DecidableEq, Repr

/-- One row of the SOURCE table: the columns the script touches. -/
structure SourceRow (K : Type) where
  name : String
  sourceId : ℤ
  properMotion : K × K
deriving DecidableEq, Repr

/-- A measurement-set dataset: its FIELD and SOURCE tables. -/
structure MS (K : Type) where
  field : List (FieldRow K)
  source : List (SourceRow K)
deriving DecidableEq, Repr

/-- The two diagnostic prints of `updatePM` (lines 122-123 and 130-131):
the freshly fetched and the previously stored proper motion, both in
milliarcseconds per year. -/
structure PMReport (K : Type) where
  fetched : K × K
  previous : K × K
deriving DecidableEq, Repr

/-- Outcome of `updatePM`: the dataset state, the diagnostic report when a
catalog match was processed, and the uncaught exception if one occurred. -/
structure UPMResult (K : Type) where
  ms : MS K
  report : Option (PMReport K)
  err : Option Err
deriving DecidableEq, Repr

/-- Outcome of the direction-update loop of lines 96-106: the FIELD table
after the writes, the uncaught exception if one occurred, and the
`foundSource` flag. -/
structure LoopResult (K : Type) where
  tbl : List (FieldRow K)
  err : Option Err
  found : Bool
deriving DecidableEq, Repr

/-- Outcome of `correctForPM`: the output dataset, the uncaught exception
if one occurred, whether line 108 printed "Did not find source", and the
catalog-sync report if `updatePM` produced one. -/
structure Result (K : Type) where
  ms : MS K
  err : Option Err
  notFoundReported : Bool
  pmReport : Option (PMReport K)
deriving DecidableEq, Repr

/-- Line 8: `SECONDS_PER_YEAR = 31556925.` (an exact float). -/
def SECONDS_PER_YEAR : K := 31556925

/-- Line 9: `ARCSEC_PER_RAD = 206264.80624709636`, that is
20626480624709636 times ten to the minus eleven, exact in double
precision up to the usual decimal-literal rounding. -/
def ARCSEC_PER_RAD : K := 20626480624709636 / 100000000000

/-- Numpy stores a float into an `int64` array with a C cast, which
truncates toward zero. -/
def npTruncToInt (q : K) : ℤ := if 0 ≤ q then ⌊q⌋ else ⌈q⌉

/-- Numpy integer indexing: a negative index wraps once from the end,
anything still out of range raises `IndexError` (modelled as `none`). -/
def npIndex {α : Type u} (l : List α) (i : ℤ) : Option α :=
  let j := if 0 ≤ i then i else i + l.length
  if 0 ≤ j then l[j.toNat]? else none

/-- Casa `tb.getcell(column, rownr)`: the row number must lie in
`[0, nrows)`, otherwise the call raises. -/
def tbGetRow {α : Type u} (l : List α) (j : ℤ) : Option α :=
  if 0 ≤ j then l[j.toNat]? else none

/-- Casa `tb.putcell` on a single row; out-of-range writes never happen in
the script because every `putcell` is preceded by a successful `getcell`
on the same row. -/
def tbSetRow {α : Type u} (l : List α) (j : ℤ) (a : α) : List α :=
  if 0 ≤ j then l.set j.toNat a else l

/-- Read one direction column of a FIELD row. -/
def getDir : DirRole → FieldRow K → K × K
  | .refDir, r => r.referenceDir
  | .phaseDir, r => r.phaseDir
  | .delayDir, r => r.delayDir

/-- Write one direction column of a FIELD row. -/
def setDir : DirRole → K × K → FieldRow K → FieldRow K
  | .refDir, v, r => { r with referenceDir := v }
  | .phaseDir, v, r => { r with phaseDir := v }
  | .delayDir, v, r => { r with delayDir := v }

/-- Line 99: `for direct in ['REFERENCE_DIR','PHASE_DIR','DELAY_DIR']`. -/
def directRoles : List DirRole := [.refDir, .phaseDir, .delayDir]

/-- Lines 101-103: the new direction computed from the stored one.
`new_dec` is computed first and its cosine divides the right-ascension
correction. -/
def newDirection (cos : K → K) (pm : K × K) (s : ℤ) (dir : K × K) : K × K :=
  let new_dec := dir.2 + pm.2 * (s : K)
  let new_ra := dir.1 + pm.1 * (s : K) / cos new_dec
  (new_ra, new_dec)

/-- Lines 99-104: the inner loop over the three direction columns of one
FIELD row, each read with `getcell` and overwritten with `putcell`. -/
def updateField (cos : K → K) (pm : K × K) (s : ℤ) (row : FieldRow K) :
    FieldRow K :=
  directRoles.foldl (fun r d => setDir d (newDirection cos pm s (getDir d r)) r) row

/-- Lines 61-67: dispatch on the runtime type of `field`.  `none` marks
the `byOther` case, where `np.array(field)` is a non-integer array and the
fancy indexing on line 68 raises `IndexError`. -/
def selectFieldIds (ftbl : List (FieldRow K)) : FieldSpec → Option (List ℤ)
  | .byName s => some ((ftbl.enum.filter (fun p => p.2.name == s)).map (fun p => (p.1 : ℤ)))
  | .byIndex i => some [i]
  | .byIndices l => some l
  | .byOther => none

/-- Lines 78-93: fill the `seconds` array, one entry per selected field.
The array is `np.zeros_like(fieldid)`, hence `int64`: every stored value
passes through the truncating cast. -/
def computeSeconds (newtime : Option (PyVal K)) (years : K) (times : List K) :
    List ℤ :=
  match newtime with
  | some (.float nt) => times.map (fun t => npTruncToInt (nt - t))
  | _ =>
    if years = 0 then
      times.map (fun t => npTruncToInt (t - 4453401600))
    else
      times.map (fun _ => npTruncToInt (years * SECONDS_PER_YEAR))

/-- The untruncated per-field elapsed-time values, written from the words
of the specification (section 4.2): the comparison target showing exactly
what the `int64` cast loses. -/
def specElapsedSeconds (newtime : Option (PyVal K)) (years : K) (times : List K) :
    List K :=
  match newtime with
  | some (.float nt) => times.map (fun t => nt - t)
  | _ =>
    if years = 0 then
      times.map (fun t => t - 4453401600)
    else
      times.map (fun _ => years * SECONDS_PER_YEAR)

/-- Lines 96-106: `for i,j in enumerate(fieldid)`, pairing each selected
row number `j` with its elapsed time `seconds[i]`.  A `getcell` on an
invalid row raises; otherwise the three direction columns of row `j` are
overwritten and `foundSource` is set. -/
def updateLoop (cos : K → K) (pm : K × K) :
    List (ℤ × ℤ) → List (FieldRow K) → LoopResult K
  | [], tbl => ⟨tbl, none, false⟩
  | (j, s) :: rest, tbl =>
    match tbGetRow tbl j with
    | none => ⟨tbl, some .indexError, false⟩
    | some row =>
      let r := updateLoop cos pm rest (tbSetRow tbl j (updateField cos pm s row))
      ⟨r.tbl, r.err, true⟩

/-- Line 128: `names == source`.  Numpy compares a string column against
the queried object elementwise; a non-string object compares unequal to
every name. -/
def pmRowMatch (source : FieldSpec) (row : SourceRow K) : Bool :=
  match source with
  | .byName s => row.name == s
  | _ => false

/-- The conversion factor `1000*ARCSEC_PER_RAD*SECONDS_PER_YEAR` shared by
lines 125 and 129. -/
def pmFactor : K := 1000 * ARCSEC_PER_RAD * SECONDS_PER_YEAR

/-- Line 125: milliarcseconds per year to radians per second. -/
def masToRad (x : K) : K := x / pmFactor

/-- Line 129: radians per second back to milliarcseconds per year, for the
diagnostic print. -/
def radToMas (x : K) : K := x * pmFactor

/-- Lines 111-135, `updatePM`: query the catalog with the raw `field`
value; on a miss print and return; on a match convert the fetched proper
motion, find the rows of the SOURCE table whose NAME equals the query
(`sid = np.where(names == source)`), print the previously stored value of
the first such row (`sid[0][0]` raises `IndexError` when there is none),
and write the converted value into every listed row (`sid` is the 1-tuple
returned by `np.where`, so the single loop iteration hands the whole index
array to `putcell`, which writes the cell of every listed row). -/
def updatePM (catalog : FieldSpec → Option (K × K)) (ms : MS K)
    (source : FieldSpec) : UPMResult K :=
  match catalog source with
  | none => ⟨ms, none, none⟩
  | some res =>
    let newpm : K × K := (masToRad res.1, masToRad res.2)
    let sid := (ms.source.enum.filter (fun p => pmRowMatch source p.2)).map (fun p => p.1)
    match sid.head? with
    | none => ⟨ms, none, some .indexError⟩
    | some k0 =>
      match ms.source[k0]? with
      | none => ⟨ms, none, some .indexError⟩
      | some row0 =>
        let pmPrev : K × K := (radToMas row0.properMotion.1, radToMas row0.properMotion.2)
        let src := ms.source.enum.map
          (fun p => if p.1 ∈ sid then { p.2 with properMotion := newpm } else p.2)
        ⟨{ ms with source := src }, some ⟨res, pmPrev⟩, none⟩

/-- Lines 59-109 of `correctForPM`, everything after the catalog sync:
field selection (lines 61-67), the reads of SOURCE_ID and TIME for the
selected rows (lines 68-69, where fancy indexing raises on a non-integer
or out-of-range index array), the proper-motion lookup through the first
selected field (lines 72-76, where `sources[0]` raises on an empty
selection), the elapsed-time computation (lines 78-93) and the
direction-update loop (lines 96-106).  Line 108 prints "Did not find
source" only when the loop ran zero iterations and no exception
escaped.  The tail of the loop block lives in `finishUpdate`: it runs the
loop of lines 96-106 over the selected row and elapsed-time pairs and
assembles the outcome. -/
def finishUpdate (cos : K → K) (out : MS K) (pm : K × K)
    (pairs : List (ℤ × ℤ)) (report : Option (PMReport K)) : Result K :=
  let step := updateLoop cos pm pairs out.field
  ⟨{ out with field := step.tbl }, step.err,
    step.err.isNone && !step.found, report⟩

def correctBody (cos : K → K) (out : MS K) (field : FieldSpec) (years : K)
    (newtime : Option (PyVal K)) (report : Option (PMReport K)) : Result K :=
    match selectFieldIds out.field field with
    | none => ⟨out, some .indexError, false, report⟩
    | some fieldid =>
      match fieldid.mapM (fun j => npIndex out.field j) with
      | none => ⟨out, some .indexError, false, report⟩
      | some rows =>
        match (rows.map (fun r => r.sourceId)).head? with
        | none => ⟨out, some .indexError, false, report⟩
        | some s0 =>
          match out.source.findIdx? (fun r => r.sourceId == s0) with
          | none => ⟨out, some .indexError, false, report⟩
          | some fi =>
            match out.source[fi]? with
            | none => ⟨out, some .indexError, false, report⟩
            | some srow =>
              finishUpdate cos out srow.properMotion
                (fieldid.zip (computeSeconds newtime years (rows.map (fun r => r.time))))
                report

/-- Continuation after the catalog-sync step: an uncaught exception from
`updatePM` aborts `correctForPM` with the dataset as the sync left it;
otherwise the rest of the call (`correctBody`) runs on the synced
dataset. -/
def syncCont (cos : K → K) (sync : UPMResult K) (field : FieldSpec)
    (years : K) (newtime : Option (PyVal K)) : Result K :=
  match sync.err with
  | some e => ⟨sync.ms, some e, false, sync.report⟩
  | none => correctBody cos sync.ms field years newtime sync.report

/-- Lines 54-109, `correctForPM`.  The output dataset starts as a fresh
copy of the input (lines 56-57, an external file-system duplication); the
optional catalog sync runs first (line 58) and an uncaught exception there
aborts the call; the rest is `correctBody`. -/
def correctForPM (cos : K → K) (catalog : FieldSpec → Option (K × K))
    (inms : MS K) (field : FieldSpec) (years : K) (newtime : Option (PyVal K))
    (updatepm : Bool) : Result K :=
  syncCont cos
    (if updatepm then updatePM catalog inms field else ⟨inms, none, none⟩)
    field years newtime

/-- The `isinstance(newtime, float)` test of line 79. -/
def isFloatVal : Option (PyVal K) → Bool
  | some (.float _) => true
  | _ => false

/-- The row numbers a given field specifier selects, for stating frame
properties (empty for the `byOther` case, which never reaches the loop). -/
def selectedFieldIds (ms : MS K) (field : FieldSpec) : List ℤ :=
  (selectFieldIds ms.field field).getD []

/-- The coordinate change (new minus old, right ascension then
declination) that one pass of the direction updater applies to one
direction role of one FIELD row. -/
def dirDelta (cos : K → K) (pm : K × K) (s : ℤ) (row : FieldRow K)
    (role : DirRole) : K × K :=
  ((getDir role (updateField cos pm s row)).1 - (getDir role row).1,
   (getDir role (updateField cos pm s row)).2 - (getDir role row).2)

/-- The columns of a FIELD row other than the three direction columns. -/
def frMeta (row : FieldRow K) : String × ℤ × K := (row.name, row.sourceId, row.time)

/-- The columns of a SOURCE row other than the proper motion. -/
def srMeta (row : SourceRow K) : String × ℤ := (row.name, row.sourceId)

lemma updateField_eq (cos : K → K) (pm : K × K) (s : ℤ) (row : FieldRow K) :
    updateField cos pm s row =
      { row with
        referenceDir := newDirection cos pm s row.referenceDir,
        phaseDir := newDirection cos pm s row.phaseDir,
        delayDir := newDirection cos pm s row.delayDir } := rfl

lemma frMeta_updateField (cos : K → K) (pm : K × K) (s : ℤ) (row : FieldRow K) :
    frMeta (updateField cos pm s row) = frMeta row := rfl

lemma updateLoop_frame_meta (cos : K → K) (pm : K × K) :
    ∀ (pairs : List (ℤ × ℤ)) (tbl : List (FieldRow K)) (k : ℕ),
      ((updateLoop cos pm pairs tbl).tbl[k]?).map frMeta = (tbl[k]?).map frMeta := by
  intro pairs
  induction pairs with
  | nil => intro tbl k; rfl
  | cons p rest ih =>
    intro tbl k
    obtain ⟨j, s⟩ := p
    show ((match tbGetRow tbl j with
      | none => (⟨tbl, some .indexError, false⟩ : LoopResult K)
      | some row =>
        let r := updateLoop cos pm rest (tbSetRow tbl j (updateField cos pm s row))
        ⟨r.tbl, r.err, true⟩).tbl[k]?).map frMeta = (tbl[k]?).map frMeta
    cases hg : tbGetRow tbl j with
    | none => rfl
    | some row =>
      have hj : 0 ≤ j := by
        by_contra hneg
        simp [tbGetRow, hneg] at hg
      have hrow : tbl[j.toNat]? = some row := by
        simpa [tbGetRow, hj] using hg
      simp only []
      rw [ih]
      rw [show tbSetRow tbl j (updateField cos pm s row) =
            tbl.set j.toNat (updateField cos pm s row) by simp [tbSetRow, hj]]
      rw [List.getElem?_set]
      by_cases hk : j.toNat = k
      · subst hk
        have hlt : j.toNat < tbl.length := by
          by_contra hge
          rw [List.getElem?_eq_none (Nat.le_of_not_lt hge)] at hrow
          exact Option.noConfusion hrow
        rw [if_pos rfl, if_pos hlt, hrow]
        simp [frMeta_updateField]
      · rw [if_neg hk]

lemma updateLoop_frame_unselected (cos : K → K) (pm : K × K) :
    ∀ (pairs : List (ℤ × ℤ)) (tbl : List (FieldRow K)) (k : ℕ),
      (↑k : ℤ) ∉ pairs.map Prod.fst →
      (updateLoop cos pm pairs tbl).tbl[k]? = tbl[k]? := by
  intro pairs
  induction pairs with
  | nil => intro tbl k _; rfl
  | cons p rest ih =>
    intro tbl k hk
    obtain ⟨j, s⟩ := p
    rw [List.map_cons, List.mem_cons] at hk
    push_neg at hk
    obtain ⟨hkj, hkrest⟩ := hk
    show (match tbGetRow tbl j with
      | none => (⟨tbl, some .indexError, false⟩ : LoopResult K)
      | some row =>
        let r := updateLoop cos pm rest (tbSetRow tbl j (updateField cos pm s row))
        ⟨r.tbl, r.err, true⟩).tbl[k]? = tbl[k]?
    cases hg : tbGetRow tbl j with
    | none => rfl
    | some row =>
      have hj : 0 ≤ j := by
        by_contra hneg
        simp [tbGetRow, hneg] at hg
      simp only []
      rw [ih _ _ hkrest]
      rw [show tbSetRow tbl j (updateField cos pm s row) =
            tbl.set j.toNat (updateField cos pm s row) by simp [tbSetRow, hj]]
      refine List.getElem?_set_ne ?_
      intro hEq
      exact hkj (by rw [← hEq]; exact Int.toNat_of_nonneg hj)

lemma mem_enumFilterMap {α : Type u} (l : List α) (f : α → Bool) (k : ℕ) :
    (k ∈ (l.enum.filter (fun p => f p.2)).map (fun p => p.1)) ↔
      ∃ a, l[k]? = some a ∧ f a = true := by
  constructor
  · intro h
    rcases List.mem_map.1 h with ⟨p, hp, hkp⟩
    rcases List.mem_filter.1 hp with ⟨hpe, hpf⟩
    obtain ⟨i, a⟩ := p
    cases hkp
    exact ⟨a, List.mk_mem_enum_iff_getElem?.1 hpe, hpf⟩
  · rintro ⟨a, ha, hf⟩
    exact List.mem_map.2
      ⟨(k, a), List.mem_filter.2 ⟨List.mk_mem_enum_iff_getElem?.2 ha, hf⟩, rfl⟩

lemma head_enumFilterMap {α : Type u} (l : List α) (f : α → Bool) :
    ∀ n : ℕ,
      (((l.enumFrom n).filter (fun p => f p.2)).map (fun p => p.1)).head? =
        l.findIdx? f n := by
  induction l with
  | nil => intro n; rfl
  | cons a l ih =>
    intro n
    rw [List.enumFrom_cons, List.filter_cons, List.findIdx?_cons]
    by_cases h : f a
    · simp only [h, if_pos rfl, if_true, List.map_cons, List.head?_cons]
    · simp only [h, Bool.false_eq_true, if_false]
      exact ih (n + 1)

lemma head_sid_eq_findIdx {α : Type u} (l : List α) (f : α → Bool) :
    ((l.enum.filter (fun p => f p.2)).map (fun p => p.1)).head? = l.findIdx? f :=
  head_enumFilterMap l f 0

lemma srcOverwrite_get (l : List (SourceRow K)) (f : SourceRow K → Bool)
    (v : K × K) (k : ℕ) :
    (l.enum.map (fun p =>
      if p.1 ∈ (l.enum.filter (fun q => f q.2)).map (fun q => q.1)
      then { p.2 with properMotion := v } else p.2))[k]? =
      (l[k]?).map (fun a => if f a then { a with properMotion := v } else a) := by
  rw [List.getElem?_map, List.getElem?_enum]
  cases h : l[k]? with
  | none => rfl
  | some a =>
    rw [Option.map_some', Option.map_some', Option.map_some']
    by_cases hf : f a
    · rw [if_pos hf, if_pos ((mem_enumFilterMap l f k).2 ⟨a, h, hf⟩)]
    · rw [if_neg hf]
      rw [if_neg (fun hmem => ?_)]
      rcases (mem_enumFilterMap l f k).1 hmem with ⟨a', ha', hfa'⟩
      rw [h] at ha'
      cases ha'
      exact hf hfa'

lemma updatePM_of_none (catalog : FieldSpec → Option (K × K)) (ms : MS K)
    (source : FieldSpec) (hc : catalog source = none) :
    updatePM catalog ms source = ⟨ms, none, none⟩ := by
  simp [updatePM, hc]

lemma updatePM_field (catalog : FieldSpec → Option (K × K)) (ms : MS K)
    (source : FieldSpec) :
    (updatePM catalog ms source).ms.field = ms.field := by
  unfold updatePM
  cases hc : catalog source with
  | none => rfl
  | some res =>
    simp only []
    split
    · rfl
    · split <;> rfl

lemma updatePM_meta (catalog : FieldSpec → Option (K × K)) (ms : MS K)
    (source : FieldSpec) (k : ℕ) :
    ((updatePM catalog ms source).ms.source[k]?).map srMeta =
      (ms.source[k]?).map srMeta := by
  unfold updatePM
  cases hc : catalog source with
  | none => rfl
  | some res =>
    simp only []
    split
    · rfl
    · split
      · rfl
      · show ((ms.source.enum.map (fun p =>
            if p.1 ∈ (ms.source.enum.filter (fun q => pmRowMatch source q.2)).map
              (fun q => q.1)
            then { p.2 with properMotion :=
              (masToRad res.1, masToRad res.2) } else p.2))[k]?).map srMeta =
          (ms.source[k]?).map srMeta
        rw [srcOverwrite_get]
        cases h : ms.source[k]? with
        | none => rfl
        | some row =>
          rw [Option.map_some', Option.map_some', Option.map_some']
          by_cases hm : pmRowMatch source row
          · rw [if_pos hm]; rfl
          · rw [if_neg hm]

lemma updatePM_nonmatching (catalog : FieldSpec → Option (K × K)) (ms : MS K)
    (source : FieldSpec) (k : ℕ) (row : SourceRow K)
    (h : ms.source[k]? = some row) (hm : pmRowMatch source row = false) :
    (updatePM catalog ms source).ms.source[k]? = some row := by
  unfold updatePM
  cases hc : catalog source with
  | none => exact h
  | some res =>
    simp only []
    split
    · exact h
    · split
      · exact h
      · show (ms.source.enum.map (fun p =>
            if p.1 ∈ (ms.source.enum.filter (fun q => pmRowMatch source q.2)).map
              (fun q => q.1)
            then { p.2 with properMotion :=
              (masToRad res.1, masToRad res.2) } else p.2))[k]? = some row
        rw [srcOverwrite_get, h, Option.map_some', hm]
        rfl

lemma updatePM_byOther (catalog : FieldSpec → Option (K × K)) (ms : MS K) :
    (updatePM catalog ms FieldSpec.byOther).ms = ms ∧
      ((updatePM catalog ms FieldSpec.byOther).err = none →
        catalog FieldSpec.byOther = none) := by
  unfold updatePM
  cases hc : catalog FieldSpec.byOther with
  | none => exact ⟨rfl, fun _ => rfl⟩
  | some res =>
    have hfalse : (fun p : ℕ × SourceRow K => pmRowMatch FieldSpec.byOther p.2) =
        fun _ => false := by
      funext p
      rfl
    simp only [hfalse, List.filter_false, List.map_nil]
    exact ⟨rfl, fun h => Option.noConfusion h⟩

lemma correctBody_source (cos : K → K) (out : MS K) (field : FieldSpec)
    (years : K) (newtime : Option (PyVal K)) (report : Option (PMReport K)) :
    (correctBody cos out field years newtime report).ms.source = out.source := by
  unfold correctBody
  split
  · rfl
  · split
    · rfl
    · split
      · rfl
      · split
        · rfl
        · split
          · rfl
          · rfl

lemma correctBody_field_meta (cos : K → K) (out : MS K) (field : FieldSpec)
    (years : K) (newtime : Option (PyVal K)) (report : Option (PMReport K))
    (k : ℕ) :
    ((correctBody cos out field years newtime report).ms.field[k]?).map frMeta =
      (out.field[k]?).map frMeta := by
  unfold correctBody
  split
  · rfl
  · split
    · rfl
    · split
      · rfl
      · split
        · rfl
        · split
          · rfl
          · exact updateLoop_frame_meta _ _ _ _ _

lemma correctBody_field_unselected (cos : K → K) (out : MS K) (field : FieldSpec)
    (years : K) (newtime : Option (PyVal K)) (report : Option (PMReport K))
    (k : ℕ) (hk : (↑k : ℤ) ∉ (selectFieldIds out.field field).getD []) :
    (correctBody cos out field years newtime report).ms.field[k]? =
      out.field[k]? := by
  unfold correctBody
  split
  · rfl
  · rename_i fieldid hsel
    rw [hsel] at hk
    split
    · rfl
    · split
      · rfl
      · split
        · rfl
        · split
          · rfl
          · refine updateLoop_frame_unselected _ _ _ _ _ (fun hmem => hk ?_)
            rcases List.mem_map.1 hmem with ⟨p, hp, hfst⟩
            rcases List.of_mem_zip hp with ⟨h1, _⟩
            rw [← hfst]
            exact h1

lemma syncCont_source (cos : K → K) (sync : UPMResult K) (field : FieldSpec)
    (years : K) (newtime : Option (PyVal K)) :
    (syncCont cos sync field years newtime).ms.source = sync.ms.source := by
  unfold syncCont
  split
  · rfl
  · exact correctBody_source _ _ _ _ _ _

lemma syncCont_field_meta (cos : K → K) (sync : UPMResult K) (field : FieldSpec)
    (years : K) (newtime : Option (PyVal K)) (k : ℕ) :
    ((syncCont cos sync field years newtime).ms.field[k]?).map frMeta =
      (sync.ms.field[k]?).map frMeta := by
  unfold syncCont
  split
  · rfl
  · exact correctBody_field_meta _ _ _ _ _ _ _

lemma syncCont_field_unselected (cos : K → K) (sync : UPMResult K)
    (field : FieldSpec) (years : K) (newtime : Option (PyVal K)) (k : ℕ)
    (hk : (↑k : ℤ) ∉ (selectFieldIds sync.ms.field field).getD []) :
    (syncCont cos sync field years newtime).ms.field[k]? =
      sync.ms.field[k]? := by
  unfold syncCont
  split
  · rfl
  · exact correctBody_field_unselected _ _ _ _ _ _ _ hk

/-- C3 (confirmed): for each direction role of a FIELD row, one pass of
the updater of lines 99-104 overwrites the stored direction (ra, dec)
with new_dec = dec + pmdec * t and new_ra = ra + pmra * t / cos(new_dec):
the declination is updated first and the cosine in the right-ascension
denominator is taken of the new declination, not the old one. -/
theorem direction_update_formula (cos : ℚ → ℚ) (pm : ℚ × ℚ) (s : ℤ)
    (row : FieldRow ℚ) (role : DirRole) :
    getDir role (updateField cos pm s row) =
      ((getDir role row).1 +
        pm.1 * (s : ℚ) / cos ((getDir role row).2 + pm.2 * (s : ℚ)),
       (getDir role row).2 + pm.2 * (s : ℚ)) := by
  cases role <;> rfl

/-- C4 counterexample: a FIELD row whose PHASE_DIR declination (pi)
differs from its REFERENCE_DIR declination (0).  With proper motion
(1, 0) rad/s and one elapsed second, the right-ascension delta applied to
REFERENCE_DIR is 1/cos 0 = 1 while the one applied to PHASE_DIR is
1/cos pi = -1: the coordinate deltas of the three roles are not
numerically identical, because each role divides by the cosine of its own
new declination. -/
theorem ra_deltas_differ_across_roles :
    dirDelta Real.cos (1, 0) 1
        { name := "demo", sourceId := 0, time := 0, referenceDir := (0, 0),
          phaseDir := (0, Real.pi), delayDir := (0, 0) } DirRole.refDir ≠
      dirDelta Real.cos (1, 0) 1
        { name := "demo", sourceId := 0, time := 0, referenceDir := (0, 0),
          phaseDir := (0, Real.pi), delayDir := (0, 0) } DirRole.phaseDir := by
  intro h
  have h1 : dirDelta Real.cos (1, 0) 1
      { name := "demo", sourceId := 0, time := 0, referenceDir := (0, 0),
        phaseDir := (0, Real.pi), delayDir := (0, 0) } DirRole.refDir =
      ((1 : ℝ), 0) := by
    simp [dirDelta, updateField_eq, getDir, newDirection]
  have h2 : dirDelta Real.cos (1, 0) 1
      { name := "demo", sourceId := 0, time := 0, referenceDir := (0, 0),
        phaseDir := (0, Real.pi), delayDir := (0, 0) } DirRole.phaseDir =
      ((-1 : ℝ), 0) := by
    simp [dirDelta, updateField_eq, getDir, newDirection, Real.cos_pi]
  rw [h1, h2] at h
  have h3 : (1 : ℝ) = -1 := congrArg Prod.fst h
  norm_num at h3

/-- C4 amended: for a given field the three direction roles receive the
same proper motion and the same elapsed time, and their declination
deltas are always identical; their right-ascension deltas are identical
whenever the declinations stored for the compared roles coincide (as they
do in a dataset whose three direction columns agree), but not in
general.  -/
theorem role_deltas_amended (cos : ℚ → ℚ) (pm : ℚ × ℚ) (s : ℤ)
    (row : FieldRow ℚ) (r1 r2 : DirRole) :
    (dirDelta cos pm s row r1).2 = (dirDelta cos pm s row r2).2 ∧
    ((getDir r1 row).2 = (getDir r2 row).2 →
      (dirDelta cos pm s row r1).1 = (dirDelta cos pm s row r2).1) := by
  constructor
  · cases r1 <;> cases r2 <;>
      simp [dirDelta, updateField_eq, getDir, newDirection, add_sub_cancel_left]
  · intro h
    cases r1 <;> cases r2 <;>
      simp_all [dirDelta, updateField_eq, getDir, newDirection,
        add_sub_cancel_left]

/-- Witness for C4 at a concrete row whose reference and phase
declinations agree. -/
theorem role_deltas_amended_witness :
    (dirDelta (fun _ => (2 : ℚ)) (3, 5) 7
        { name := "w", sourceId := 0, time := 0, referenceDir := (1, 9),
          phaseDir := (4, 9), delayDir := (6, 11) } DirRole.refDir).1 =
      (dirDelta (fun _ => (2 : ℚ)) (3, 5) 7
        { name := "w", sourceId := 0, time := 0, referenceDir := (1, 9),
          phaseDir := (4, 9), delayDir := (6, 11) } DirRole.phaseDir).1 ∧
    (dirDelta (fun _ => (2 : ℚ)) (3, 5) 7
        { name := "w", sourceId := 0, time := 0, referenceDir := (1, 9),
          phaseDir := (4, 9), delayDir := (6, 11) } DirRole.refDir).2 =
      (dirDelta (fun _ => (2 : ℚ)) (3, 5) 7
        { name := "w", sourceId := 0, time := 0, referenceDir := (1, 9),
          phaseDir := (4, 9), delayDir := (6, 11) } DirRole.delayDir).2 := by
  refine ⟨(role_deltas_amended (fun _ => (2 : ℚ)) (3, 5) 7
    { name := "w", sourceId := 0, time := 0, referenceDir := (1, 9),
      phaseDir := (4, 9), delayDir := (6, 11) } DirRole.refDir
    DirRole.phaseDir).2 (by decide),
    (role_deltas_amended (fun _ => (2 : ℚ)) (3, 5) 7
    { name := "w", sourceId := 0, time := 0, referenceDir := (1, 9),
      phaseDir := (4, 9), delayDir := (6, 11) } DirRole.refDir
    DirRole.delayDir).1⟩

/-- C6 (confirmed): converting a proper-motion pair from
milliarcseconds/year to radians/second (division by
`1000*ARCSEC_PER_RAD*SECONDS_PER_YEAR`, line 125) and applying the
inverse conversion (multiplication by the same factor, line 129)
reproduces the original pair exactly in the rational model of
floating-point values. -/
theorem pm_unit_roundTrip (pa pd : ℚ) :
    (radToMas (masToRad pa), radToMas (masToRad pd)) = (pa, pd) := by
  have hF : (pmFactor : ℚ) ≠ 0 := by
    norm_num [pmFactor, ARCSEC_PER_RAD, SECONDS_PER_YEAR]
  simp [masToRad, radToMas, div_mul_cancel₀, hF]

/-- C2 counterexample: with one selected field of recorded time T = 0 and
an explicit float target epoch E = 201/2, the elapsed time the code
stores is 100, not E - T = 201/2: the `int64` array truncates the
difference, so "elapsed = E - T" is false as stated. -/
theorem elapsed_not_exact_difference :
    (computeSeconds (some (PyVal.float ((201 : ℚ) / 2))) 0 [(0 : ℚ)]).map
      (fun z => (z : ℚ)) ≠ [(201 : ℚ) / 2 - 0] := by
  have h1 : npTruncToInt ((201 : ℚ) / 2 - 0) = 100 := by
    norm_num [npTruncToInt]
  simp only [computeSeconds, List.map_cons, List.map_nil, h1]
  intro h
  have h2 : ((100 : ℤ) : ℚ) = (201 : ℚ) / 2 - 0 := List.head_eq_of_cons_eq h
  norm_num at h2

/-- C2 amended: the three-mode precedence holds with every elapsed time
truncated toward zero by the `int64` store: a float `newtime` E yields
trunc(E - T) per field regardless of the year offset; otherwise a
non-zero year offset Y yields trunc(Y * 31556925) for every field
regardless of T; otherwise each field yields trunc(T - 4453401600). -/
theorem epoch_precedence_truncated (E Y : ℚ) (nt : Option (PyVal ℚ))
    (ts : List ℚ) :
    computeSeconds (some (PyVal.float E)) Y ts =
      ts.map (fun t => npTruncToInt (E - t)) ∧
    (isFloatVal nt = false → Y ≠ 0 →
      computeSeconds nt Y ts =
        ts.map (fun _ => npTruncToInt (Y * SECONDS_PER_YEAR))) ∧
    (isFloatVal nt = false →
      computeSeconds nt 0 ts =
        ts.map (fun t => npTruncToInt (t - 4453401600))) := by
  refine ⟨rfl, ?_, ?_⟩
  · intro hnf hY
    cases nt with
    | none => simp [computeSeconds, if_neg hY]
    | some v =>
      cases v with
      | float x => simp [isFloatVal] at hnf
      | int n => simp [computeSeconds, if_neg hY]
  · intro hnf
    cases nt with
    | none => simp [computeSeconds]
    | some v =>
      cases v with
      | float x => simp [isFloatVal] at hnf
      | int n => simp [computeSeconds]

/-- Witness for C2: the year-offset mode at Y = 1 and the default mode,
both with newtime absent. -/
theorem epoch_precedence_truncated_witness :
    computeSeconds (none : Option (PyVal ℚ)) 1 [0] = [31556925] ∧
    computeSeconds (none : Option (PyVal ℚ)) 0 [0] = [-4453401600] := by
  constructor
  · have h := (epoch_precedence_truncated 0 1 none [0]).2.1 (by decide) (by norm_num)
    rw [h]
    simp only [List.map_cons, List.map_nil]
    norm_num [npTruncToInt, SECONDS_PER_YEAR]
  · have h := (epoch_precedence_truncated 0 0 none [0]).2.2 (by decide)
    rw [h]
    simp only [List.map_cons, List.map_nil]
    have h2 : npTruncToInt ((0 : ℚ) - 4453401600) = -4453401600 := by
      rw [show ((0 : ℚ) - 4453401600) = ((-4453401600 : ℤ) : ℚ) by norm_num]
      unfold npTruncToInt
      rw [if_neg (by norm_num), Int.ceil_intCast]
    rw [h2]

/-- C8 (confirmed): an integer `newtime` fails the
`isinstance(newtime, float)` test of line 79, so with years = 0 the
elapsed times are those of the default mode (identical to supplying no
newtime at all), namely the truncation of T - 4453401600 per field, not
newtime - T. -/
theorem int_newtime_default_mode (n : ℤ) (ts : List ℚ) :
    computeSeconds (some (PyVal.int n)) 0 ts =
      computeSeconds (none : Option (PyVal ℚ)) 0 ts ∧
    computeSeconds (some (PyVal.int n)) 0 ts =
      ts.map (fun t => npTruncToInt (t - 4453401600)) := by
  constructor <;> simp [computeSeconds]

/-- C9 (confirmed): the `seconds` array is `np.zeros_like(fieldid)` and
inherits its integer dtype, so the computed elapsed times are exactly the
toward-zero truncations of the untruncated mode formulas; the direction
update then multiplies the proper motion by these whole-second values. -/
theorem seconds_are_truncated_integers (nt : Option (PyVal ℚ)) (Y : ℚ)
    (ts : List ℚ) :
    computeSeconds nt Y ts = (specElapsedSeconds nt Y ts).map npTruncToInt := by
  cases nt with
  | none =>
    by_cases hY : Y = 0 <;>
      simp [computeSeconds, specElapsedSeconds, hY, List.map_map, Function.comp]
  | some v =>
    cases v with
    | float x => simp [computeSeconds, specElapsedSeconds, List.map_map, Function.comp]
    | int n =>
      by_cases hY : Y = 0 <;>
        simp [computeSeconds, specElapsedSeconds, hY, List.map_map, Function.comp]

/-- A one-field dataset whose only field is named "hr8799", used to
exercise a selection miss. -/
def msNoMatch : MS ℚ :=
  { field := [{ name := "hr8799", sourceId := 0, time := 0,
                referenceDir := (1, 2), phaseDir := (1, 2), delayDir := (1, 2) }],
    source := [{ name := "hr8799", sourceId := 0, properMotion := (0, 0) }] }

/-- C1 (code bug): selecting the name "nosuch", which matches zero FIELD
rows, leaves `fieldid` and hence `sources` empty, so `sources[0]` on line
74 raises an uncaught IndexError.  The invocation aborts instead of
completing normally; the "Did not find source" report of line 108 is
never reached (it is dead code, since an empty selection always crashes
first).  No direction is written, so the output tables do equal the fresh
copy of the input, but the operation is fatal, contradicting the claimed
non-fatal no-op. -/
theorem selectionMiss_aborts_with_indexError :
    (correctForPM (fun x => x) (fun _ => none) msNoMatch
      (FieldSpec.byName "nosuch") 0 none false).err = some Err.indexError ∧
    (correctForPM (fun x => x) (fun _ => none) msNoMatch
      (FieldSpec.byName "nosuch") 0 none false).notFoundReported = false ∧
    (correctForPM (fun x => x) (fun _ => none) msNoMatch
      (FieldSpec.byName "nosuch") 0 none false).ms = msNoMatch := by
  refine ⟨by decide, by decide, by decide⟩

/-- C7 (confirmed): a field specifier that is neither a name, an integer,
nor a collection of integers makes `np.array(field)` a non-integer array,
and the fancy indexing of line 68 raises an uncaught IndexError (when the
catalog sync was requested and returned a match for the raw specifier,
the sync itself raises first).  Either way the call fails hard and the
output dataset is left exactly equal to the fresh copy of the input: no
direction write occurs. -/
theorem bad_specifier_hard_failure (cos : ℚ → ℚ)
    (catalog : FieldSpec → Option (ℚ × ℚ)) (inms : MS ℚ) (years : ℚ)
    (newtime : Option (PyVal ℚ)) (updatepm : Bool) :
    ((correctForPM cos catalog inms FieldSpec.byOther years newtime
      updatepm).err).isSome = true ∧
    (correctForPM cos catalog inms FieldSpec.byOther years newtime
      updatepm).ms = inms := by
  cases updatepm with
  | false => exact ⟨rfl, rfl⟩
  | true =>
    cases hc : catalog FieldSpec.byOther with
    | none =>
      have hid := updatePM_of_none catalog inms FieldSpec.byOther hc
      simp only [correctForPM, if_true, hid]
      exact ⟨rfl, rfl⟩
    | some res =>
      have hup : updatePM catalog inms FieldSpec.byOther =
          ⟨inms, none, some Err.indexError⟩ := by
        unfold updatePM
        rw [hc]
        have hfalse : (fun p : ℕ × SourceRow ℚ =>
            pmRowMatch FieldSpec.byOther p.2) = fun _ => false := by
          funext p
          rfl
        simp only [hfalse, List.filter_false, List.map_nil]
        rfl
      simp only [correctForPM, if_true, hup]
      exact ⟨rfl, rfl⟩

/-- C5 (confirmed): when the catalog matches the queried name, `updatePM`
completes without error, reports the fetched value together with the
previously stored value of the first matching SOURCE row (both in
milliarcseconds/year, the stored one converted back by multiplication
with the factor of line 129), and overwrites the proper motion of every
SOURCE row whose NAME equals the queried name with the fetched value
divided by `1000*ARCSEC_PER_RAD*SECONDS_PER_YEAR`; all other rows and the
FIELD table are untouched. -/
theorem updatePM_match_overwrites
    (catalog : FieldSpec → Option (ℚ × ℚ)) (ms : MS ℚ) (s : String)
    (pa pd : ℚ) (k0 : ℕ) (row0 : SourceRow ℚ)
    (hc : catalog (FieldSpec.byName s) = some (pa, pd))
    (hfind : ms.source.findIdx? (pmRowMatch (FieldSpec.byName s)) = some k0)
    (hrow : ms.source[k0]? = some row0) :
    (updatePM catalog ms (FieldSpec.byName s)).err = none ∧
    (updatePM catalog ms (FieldSpec.byName s)).report =
      some { fetched := (pa, pd),
             previous := (radToMas row0.properMotion.1,
                          radToMas row0.properMotion.2) } ∧
    (∀ k : ℕ, (updatePM catalog ms (FieldSpec.byName s)).ms.source[k]? =
      (ms.source[k]?).map (fun row =>
        if row.name == s
        then { row with properMotion := (masToRad pa, masToRad pd) }
        else row)) ∧
    (updatePM catalog ms (FieldSpec.byName s)).ms.field = ms.field := by
  have hsid : ((ms.source.enum.filter
      (fun p => pmRowMatch (FieldSpec.byName s) p.2)).map (fun p => p.1)).head? =
      some k0 := by
    rw [head_sid_eq_findIdx]
    exact hfind
  unfold updatePM
  cases hc2 : catalog (FieldSpec.byName s) with
  | none => rw [hc] at hc2; cases hc2
  | some res =>
    rw [hc] at hc2
    injection hc2 with hres
    subst hres
    simp only []
    split
    · rename_i hnone
      rw [hsid] at hnone
      cases hnone
    · rename_i k0' hk0'
      rw [hsid] at hk0'
      injection hk0' with hk0''
      subst hk0''
      split
      · rename_i hnone
        rw [hrow] at hnone
        cases hnone
      · rename_i row0' hrow'
        rw [hrow] at hrow'
        injection hrow' with hrow''
        subst hrow''
        refine ⟨rfl, rfl, ?_, rfl⟩
        intro k
        show (ms.source.enum.map (fun p =>
            if p.1 ∈ (ms.source.enum.filter
              (fun q => pmRowMatch (FieldSpec.byName s) q.2)).map (fun q => q.1)
            then { p.2 with properMotion := (masToRad pa, masToRad pd) }
            else p.2))[k]? =
          (ms.source[k]?).map (fun row =>
            if row.name == s
            then { row with properMotion := (masToRad pa, masToRad pd) }
            else row)
        rw [srcOverwrite_get]
        cases h : ms.source[k]? with
        | none => rfl
        | some row => rfl

/-- A three-source dataset with two rows named "a", for the C5 witness. -/
def msTwoA : MS ℚ :=
  { field := [],
    source := [{ name := "a", sourceId := 0, properMotion := (2, 3) },
               { name := "b", sourceId := 1, properMotion := (4, 5) },
               { name := "a", sourceId := 2, properMotion := (6, 7) }] }

/-- Witness for C5: a catalog match on "a" updates both rows named "a",
here checked on the second one. -/
theorem updatePM_match_overwrites_witness :
    (updatePM (fun _ => some ((1000 : ℚ), 2000)) msTwoA
      (FieldSpec.byName "a")).err = none ∧
    (updatePM (fun _ => some ((1000 : ℚ), 2000)) msTwoA
      (FieldSpec.byName "a")).ms.source[2]? =
      some { name := "a", sourceId := 2,
             properMotion := (masToRad 1000, masToRad 2000) } := by
  have h := updatePM_match_overwrites (fun _ => some ((1000 : ℚ), 2000)) msTwoA
    "a" 1000 2000 0 { name := "a", sourceId := 0, properMotion := (2, 3) }
    rfl (by decide) rfl
  refine ⟨h.1, ?_⟩
  rw [h.2.2.1 2]
  rfl

/-- A two-field dataset for the C10 witness. -/
def msTwoFields : MS ℚ :=
  { field := [{ name := "x", sourceId := 0, time := 0,
                referenceDir := (1, 2), phaseDir := (1, 2), delayDir := (1, 2) },
              { name := "y", sourceId := 1, time := 5,
                referenceDir := (3, 4), phaseDir := (3, 4), delayDir := (3, 4) }],
    source := [{ name := "x", sourceId := 0, properMotion := (0, 0) },
               { name := "y", sourceId := 1, properMotion := (0, 0) }] }

/-- C10 (confirmed): the only dataset cells `correctForPM` can write are
the three direction cells of the selected FIELD rows and, when the
catalog sync is requested and matches, the PROPER_MOTION cells of the
SOURCE rows whose NAME equals the queried specifier.  Every FIELD row
outside the selection is returned unchanged; the NAME, SOURCE_ID and TIME
columns of every FIELD row and the NAME and SOURCE_ID columns of every
SOURCE row always keep their input values; SOURCE rows whose name does
not match are unchanged, and the whole SOURCE table is unchanged when no
sync was requested or the catalog does not match. -/
theorem frame_only_selected_cells (cos : ℚ → ℚ)
    (catalog : FieldSpec → Option (ℚ × ℚ)) (inms : MS ℚ) (field : FieldSpec)
    (years : ℚ) (newtime : Option (PyVal ℚ)) (updatepm : Bool) :
    (∀ k : ℕ, (↑k : ℤ) ∉ selectedFieldIds inms field →
      (correctForPM cos catalog inms field years newtime updatepm).ms.field[k]? =
        inms.field[k]?) ∧
    (∀ k : ℕ,
      ((correctForPM cos catalog inms field years newtime
        updatepm).ms.field[k]?).map frMeta = (inms.field[k]?).map frMeta) ∧
    (∀ k : ℕ,
      ((correctForPM cos catalog inms field years newtime
        updatepm).ms.source[k]?).map srMeta = (inms.source[k]?).map srMeta) ∧
    (∀ (k : ℕ) (row : SourceRow ℚ), inms.source[k]? = some row →
      pmRowMatch field row = false →
      (correctForPM cos catalog inms field years newtime
        updatepm).ms.source[k]? = some row) ∧
    (updatepm = false →
      (correctForPM cos catalog inms field years newtime
        updatepm).ms.source = inms.source) ∧
    (catalog field = none →
      (correctForPM cos catalog inms field years newtime
        updatepm).ms.source = inms.source) := by
  have hsync_field : (if updatepm then updatePM catalog inms field
      else (⟨inms, none, none⟩ : UPMResult ℚ)).ms.field = inms.field := by
    cases updatepm with
    | false => rfl
    | true => exact updatePM_field catalog inms field
  have hsync_meta : ∀ k : ℕ, (((if updatepm then updatePM catalog inms field
      else (⟨inms, none, none⟩ : UPMResult ℚ)).ms.source[k]?).map srMeta) =
      (inms.source[k]?).map srMeta := by
    cases updatepm with
    | false => intro k; rfl
    | true => exact updatePM_meta catalog inms field
  have hsync_nonmatch : ∀ (k : ℕ) (row : SourceRow ℚ),
      inms.source[k]? = some row → pmRowMatch field row = false →
      (if updatepm then updatePM catalog inms field
        else (⟨inms, none, none⟩ : UPMResult ℚ)).ms.source[k]? = some row := by
    cases updatepm with
    | false => intro k row h _; exact h
    | true => exact updatePM_nonmatching catalog inms field
  have hsync_none : catalog field = none →
      (if updatepm then updatePM catalog inms field
        else (⟨inms, none, none⟩ : UPMResult ℚ)).ms.source = inms.source := by
    intro hc
    cases updatepm with
    | false => rfl
    | true =>
      rw [updatePM_of_none catalog inms field hc]
      rfl
  simp only [correctForPM]
  refine ⟨?_, ?_, ?_, ?_, ?_, ?_⟩
  · intro k hk
    refine (syncCont_field_unselected cos _ field years newtime k ?_).trans ?_
    · rw [hsync_field]
      exact hk
    · rw [hsync_field]
  · intro k
    refine ((syncCont_field_meta cos _ field years newtime k).trans ?_)
    rw [hsync_field]
  · intro k
    rw [syncCont_source]
    exact hsync_meta k
  · intro k row h1 h2
    rw [syncCont_source]
    exact hsync_nonmatch k row h1 h2
  · intro h
    rw [syncCont_source]
    rw [h]
    rfl
  · intro hc
    rw [syncCont_source]
    exact hsync_none hc

/-- Witness for C10: selecting field 0 of a two-field dataset leaves the
row of field 1 untouched, and with no catalog sync requested (and a
catalog with no match) every SOURCE row is untouched. -/
theorem frame_only_selected_cells_witness :
    (correctForPM (fun x => x) (fun _ => none) msTwoFields
      (FieldSpec.byIndex 0) 0 none false).ms.field[1]? =
      msTwoFields.field[1]? ∧
    (correctForPM (fun x => x) (fun _ => none) msTwoFields
      (FieldSpec.byIndex 0) 0 none false).ms.source[0]? =
      some { name := "x", sourceId := 0, properMotion := (0, 0) } ∧
    (correctForPM (fun x => x) (fun _ => none) msTwoFields
      (FieldSpec.byIndex 0) 0 none false).ms.source = msTwoFields.source ∧
    (correctForPM (fun x => x) (fun _ => none) msTwoFields
      (FieldSpec.byIndex 0) 0 none false).ms.source = msTwoFields.source := by
  have h := frame_only_selected_cells (fun x => x) (fun _ => none) msTwoFields
    (FieldSpec.byIndex 0) 0 none false
  exact ⟨h.1 1 (by decide),
    h.2.2.2.1 0 { name := "x", sourceId := 0, properMotion := (0, 0) } rfl
      (by decide),
    h.2.2.2.2.1 rfl, h.2.2.2.2.2 rfl⟩

end Casautils
